import Mathlib

/-!
# Verification of the multi-source-scraping-project repository

Shallow embedding, in Lean 4, of the parts of the repository that the
verified claims are about:

* `config/settings.py` — the static MinIO bucket/space configuration and the
  scraper configuration constants;
* `config/resolver.py` — the bucket/space lookup helpers;
* `storage/minio_client.py` — the `MinIOStorage` class: bucket/folder
  provisioning, object placement with backup naming, deletion, and the full
  reset, modelled over an explicit MinIO instance state
  (`MinioState = List MinioBucket`), with the external MinIO SDK calls
  rendered as explicit state transformers and Python exceptions rendered as
  `Except` values;
* `etl_quotes/a_extract/scraper.py` — text cleaning, quote parsing, the
  paginated crawl, and the tenacity retry decorator around `_fetch`.

Python strings are embedded as `String` (character-level operations go
through `String.data`, i.e. `List Char`), Python `None`-able values as
`Option`, Python tuples of config records as `List`, and raised exceptions
as `Except PyErr`.
-/

namespace MSSP

/-! ## Python string primitives -/

/-- Whitespace recognised by Python `str.strip()` (the ASCII whitespace
characters; the code under verification only ever deals with these). -/
def isPySpace (c : Char) : Bool :=
  c = ' ' || c = '\t' || c = '\n' || c = '\r' || c = Char.ofNat 11 || c = Char.ofNat 12

/-- Drop a maximal trailing run of characters satisfying `p`. -/
def dropTrailing (p : Char → Bool) (s : List Char) : List Char :=
  (s.reverse.dropWhile p).reverse

/-- Python `str.strip()` on the character list of a string. -/
def pyStrip (s : List Char) : List Char :=
  dropTrailing isPySpace (s.dropWhile isPySpace)

/-- Python `str.strip()` on `String`. -/
def stripS (s : String) : String :=
  ⟨pyStrip s.data⟩

/-- `listPfx p s` is true when `p` is a prefix of `s` (Python `s.startswith(p)`,
also the "object name has this prefix" test of MinIO listings). -/
def listPfx : List Char → List Char → Bool
  | [], _ => true
  | _ :: _, [] => false
  | a :: as, b :: bs => a = b && listPfx as bs

/-- Python `needle in haystack` substring test. -/
def containsSub (needle : List Char) : List Char → Bool
  | [] => listPfx needle []
  | c :: cs => listPfx needle (c :: cs) || containsSub needle cs

/-- Substring test on `String` (`"/author/" in href`). -/
def containsSubS (needle haystack : String) : Bool :=
  containsSub needle.data haystack.data

/-- Python `s.endswith('/')`. -/
def pyEndsWithSlash (s : String) : Bool :=
  match s.data.getLast? with
  | some c => c = '/'
  | none => false

/-! ## `etl_quotes/a_extract/scraper.py`: `_clean_text`

`_clean_text` is
```python
text = text.strip()
text = re.sub(r'^[""“”]+|[""“”]+$', '', text)
return text.strip()
```
The character class holds `"` (U+0022, written twice in the source) and the
curly quotes U+201C / U+201D.  On a string with no trailing newline — which
is guaranteed here because the preceding `strip()` removes any trailing
whitespace — `re.sub` with this pattern deletes the maximal leading run and
the maximal trailing run of those characters (the `$`-before-final-newline
subtlety of Python regexes cannot arise). -/

/-- The decorative quotation marks matched by the `_clean_text` regex. -/
def isQuoteMark (c : Char) : Bool :=
  c = '"' || c = Char.ofNat 8220 || c = Char.ofNat 8221

/-- Effect of the `re.sub` call of `_clean_text` on its (already stripped)
input: remove the maximal leading and the maximal trailing run of
decorative quotation marks. -/
def subQuoteRuns (s : List Char) : List Char :=
  dropTrailing isQuoteMark (s.dropWhile isQuoteMark)

/-- `QuotesScraper._clean_text` on the character list of a string. -/
def cleanText (t : List Char) : List Char :=
  pyStrip (subQuoteRuns (pyStrip t))

/-- `QuotesScraper._clean_text` on `String`. -/
def cleanTextS (t : String) : String :=
  ⟨cleanText t.data⟩

/-! ## `config/settings.py`: the static MinIO configuration -/

/-- Runtime value of the `backup` field of a `SpaceConfig`.  The dataclass
annotates the field as `bool` but Python does not enforce annotations, and
`resolver.get_backup` explicitly guards with `isinstance(space.backup, bool)`;
a non-`bool` value is therefore representable, carrying only its Python
truthiness (which is all `minio_client.py` ever consumes from it). -/
inductive PyBackup where
  | pybool (b : Bool)
  | nonBool (truthy : Bool)
deriving DecidableEq

/-- Python truthiness of a `backup` field value (`if space_cfg.backup:`). -/
def pyTruthy : PyBackup → Bool
  | .pybool b => b
  | .nonBool t => t

/-- `settings.SpaceConfig`. -/
structure SpaceConfig where
  name : String
  flow_dir_name : String
  backup_dir_name : String
  backup : PyBackup := .pybool false
deriving DecidableEq

/-- `settings.BucketConfig` (the `spaces` tuple becomes a list). -/
structure BucketConfig where
  name : String
  spaces : List SpaceConfig
deriving DecidableEq

/-- `settings.MinIOConfig`, restricted to its `buckets` field.  The other
fields (`endpoint`, credentials, `secure`) come from `.env` and are consumed
only by the external `Minio(...)` SDK constructor, which no claim is about. -/
structure MinIOConfig where
  buckets : List BucketConfig
deriving DecidableEq

/-- The static bucket/space configuration: the default value of
`MinIOConfig.buckets` in `settings.py`. -/
def staticMinioCfg : MinIOConfig :=
  { buckets :=
      [ { name := "bucket-bronze"
          spaces :=
            [ { name := "space-site-quotes", flow_dir_name := "flow-dir"
                backup_dir_name := "backup-dir", backup := .pybool true }
            , { name := "space-site-books", flow_dir_name := "flow-dir"
                backup_dir_name := "backup-dir", backup := .pybool true }
            , { name := "space-api-address", flow_dir_name := "flow-dir"
                backup_dir_name := "backup-dir", backup := .pybool true }
            , { name := "space-xslt-bookstores", flow_dir_name := "flow-dir"
                backup_dir_name := "backup-dir", backup := .pybool true } ] }
      , { name := "bucket-silver"
          spaces :=
            [ { name := "space-site-quotes", flow_dir_name := "flow-dir"
                backup_dir_name := "backup-dir", backup := .pybool true }
            , { name := "space-site-books", flow_dir_name := "flow-dir"
                backup_dir_name := "backup-dir", backup := .pybool true }
            , { name := "space-api-address", flow_dir_name := "flow-dir"
                backup_dir_name := "backup-dir", backup := .pybool true }
            , { name := "space-xslt-bookstores", flow_dir_name := "flow-dir"
                backup_dir_name := "backup-dir", backup := .pybool true } ] }
      , { name := "bucket-gold"
          spaces :=
            [ { name := "space-site-quotes", flow_dir_name := "flow-dir"
                backup_dir_name := "backup-dir", backup := .pybool true }
            , { name := "space-site-books", flow_dir_name := "flow-dir"
                backup_dir_name := "backup-dir", backup := .pybool true }
            , { name := "space-api-address", flow_dir_name := "flow-dir"
                backup_dir_name := "backup-dir", backup := .pybool true }
            , { name := "space-xslt-bookstores", flow_dir_name := "flow-dir"
                backup_dir_name := "backup-dir", backup := .pybool true } ] } ] }

/-- `settings.ScraperConfig.max_pages` (= 20). -/
def scraperConfigMaxPages : Int := 20

/-! ## `config/resolver.py` -/

/-- First space of a list with the given name (the inner
`for space in ...: if space.name == space_name: ...` loops). -/
def spaceScan : List SpaceConfig → String → Option SpaceConfig
  | [], _ => none
  | sp :: rest, s => if sp.name = s then some sp else spaceScan rest s

/-- First bucket of a list with the given name (the loop of `get_bucket`). -/
def bucketScan : List BucketConfig → String → Option BucketConfig
  | [], _ => none
  | bk :: rest, b => if bk.name = b then some bk else bucketScan rest b

/-- `resolver.get_bucket`. -/
def getBucket (cfg : MinIOConfig) (bucket_name : String) : Option BucketConfig :=
  bucketScan cfg.buckets bucket_name

/-- `resolver.get_space`: `get_bucket` first; on `None` (falsy) return `None`;
otherwise first space of that bucket with the given name. -/
def getSpace (cfg : MinIOConfig) (bucket_name space_name : String) : Option SpaceConfig :=
  match getBucket cfg bucket_name with
  | none => none
  | some bucket => spaceScan bucket.spaces space_name

/-- `resolver.list_bucket_names`. -/
def listBucketNames (cfg : MinIOConfig) : List String :=
  cfg.buckets.map (·.name)

/-- `resolver.list_space_names`. -/
def listSpaceNames (cfg : MinIOConfig) (bucket_name : String) : List String :=
  match getBucket cfg bucket_name with
  | none => []
  | some bucket => bucket.spaces.map (·.name)

/-- The double loop of `resolver.get_flow_dir_name`: note that when a bucket
matches the name but holds no space of the requested name, the **outer** loop
continues with the remaining buckets (there is no early `return None`). -/
def flowDirScan : List BucketConfig → String → String → Option String
  | [], _, _ => none
  | bk :: rest, b, s =>
    if bk.name = b then
      match spaceScan bk.spaces s with
      | some sp => some sp.flow_dir_name
      | none => flowDirScan rest b s
    else flowDirScan rest b s

/-- `resolver.get_flow_dir_name`. -/
def getFlowDirName (cfg : MinIOConfig) (bucket_name space_name : String) : Option String :=
  flowDirScan cfg.buckets bucket_name space_name

/-- The double loop of `resolver.get_backup_dir_name` (same fall-through
structure as `flowDirScan`). -/
def backupDirScan : List BucketConfig → String → String → Option String
  | [], _, _ => none
  | bk :: rest, b, s =>
    if bk.name = b then
      match spaceScan bk.spaces s with
      | some sp => some sp.backup_dir_name
      | none => backupDirScan rest b s
    else backupDirScan rest b s

/-- `resolver.get_backup_dir_name`. -/
def getBackupDirName (cfg : MinIOConfig) (bucket_name space_name : String) : Option String :=
  backupDirScan cfg.buckets bucket_name space_name

/-- The result of `resolver.get_backup` once a matching space is found:
`True` iff `isinstance(space.backup, bool)` and the value is `True`. -/
def backupIsTrueBool : PyBackup → Bool
  | .pybool b => b
  | .nonBool _ => false

/-- The double loop of `resolver.get_backup` (same fall-through structure as
`flowDirScan`; once the space is found the function returns immediately). -/
def backupScan : List BucketConfig → String → String → Bool
  | [], _, _ => false
  | bk :: rest, b, s =>
    if bk.name = b then
      match spaceScan bk.spaces s with
      | some sp => backupIsTrueBool sp.backup
      | none => backupScan rest b s
    else backupScan rest b s

/-- `resolver.get_backup`. -/
def getBackup (cfg : MinIOConfig) (bucket_name space_name : String) : Bool :=
  backupScan cfg.buckets bucket_name space_name

/-- The behaviour the specification ascribes to `get_flow_dir_name`: the
`flow_dir_name` field of the space `get_space` resolves to, or `None`. -/
def claimedFlowDirName (cfg : MinIOConfig) (b s : String) : Option String :=
  (getSpace cfg b s).map SpaceConfig.flow_dir_name

/-- The behaviour the specification ascribes to `get_backup_dir_name`. -/
def claimedBackupDirName (cfg : MinIOConfig) (b s : String) : Option String :=
  (getSpace cfg b s).map SpaceConfig.backup_dir_name

/-- The behaviour the specification ascribes to `get_backup`: `True` exactly
when the space `get_space` resolves to exists and its backup field is the
boolean `True`. -/
def claimedBackup (cfg : MinIOConfig) (b s : String) : Bool :=
  match getSpace cfg b s with
  | some sp => sp.backup = PyBackup.pybool true
  | none => false

/-- The first space named `s` among the spaces of **all** buckets named `b`,
in configuration order: this is the space the fall-through scans of
`get_flow_dir_name` / `get_backup` / `get_backup_dir_name` actually resolve. -/
def crossBucketSpace (cfg : MinIOConfig) (b s : String) : Option SpaceConfig :=
  spaceScan ((cfg.buckets.filter (fun bk => bk.name = b)).flatMap (·.spaces)) s

/-! ## `storage/minio_client.py`: state model of the MinIO instance

The MinIO server is modelled as a list of buckets, each holding the names of
its objects (object contents play no role in any claim).  SDK calls become
explicit operations on this state; an SDK call that raises `S3Error` becomes
an `Except PyErr` value (or, where the surrounding Python code catches every
exception on the spot, directly the caught behaviour). -/

/-- A bucket of the MinIO instance: its name and the names of its objects. -/
structure MinioBucket where
  name : String
  objs : List String
deriving DecidableEq

/-- The state of the MinIO instance. -/
abbrev MinioState := List MinioBucket

/-- Python exceptions that the embedded code can raise or catch. -/
inductive PyErr where
  | s3Error (code : String)
  | nameError
  | typeError
  | fileNotFoundError
deriving DecidableEq

/-- `client.bucket_exists`. -/
def bucketExists : MinioState → String → Bool
  | [], _ => false
  | bk :: rest, b => bk.name = b || bucketExists rest b

/-- Objects of the (first) bucket with the given name; `[]` if absent. -/
def getObjs : MinioState → String → List String
  | [], _ => []
  | bk :: rest, b => if bk.name = b then bk.objs else getObjs rest b

/-- `client.make_bucket`: adds an empty bucket. -/
def makeBucket (st : MinioState) (b : String) : MinioState :=
  st ++ [{ name := b, objs := [] }]

/-- `client.put_object` / `client.fput_object` target effect: create an
object with the given name in the (first) bucket with the given name.  A
missing bucket leaves the state unchanged (the real SDK raises `S3Error`
there; every call site in `minio_client.py` catches it on the spot and
mutates nothing). -/
def addObject : MinioState → String → String → MinioState
  | [], _, _ => []
  | bk :: rest, b, o =>
    if bk.name = b then { bk with objs := bk.objs ++ [o] } :: rest
    else bk :: addObject rest b o

/-- `next(client.list_objects(bucket, prefix=p, recursive=True), None) is not None`:
some object of the bucket has the given name prefix. -/
def hasObjWithPfx (st : MinioState) (b p : String) : Bool :=
  (getObjs st b).any (fun o => listPfx p.data o.data)

/-- `client.stat_object`, as the S3 error codes the callers dispatch on. -/
def statObject (st : MinioState) (b o : String) : Except PyErr Unit :=
  if bucketExists st b = false then .error (.s3Error "NoSuchBucket")
  else if (getObjs st b).contains o then .ok ()
  else .error (.s3Error "NoSuchKey")

/-- `MinIOStorage._object_exists`: `stat_object` succeeds → `True`; an
`S3Error` with code `NoSuchKey` / `NoSuchObject` / `NoSuchBucket` → `False`
(the state model produces only those two codes, so the `raise` re-raising
other codes is unreachable here). -/
def objectExistsB (st : MinioState) (b o : String) : Bool :=
  match statObject st b o with
  | .ok _ => true
  | .error _ => false

/-- `client.remove_object`: drop the object from the (first) bucket with the
given name. -/
def removeObject : MinioState → String → String → MinioState
  | [], _, _ => []
  | bk :: rest, b, o =>
    if bk.name = b then { bk with objs := bk.objs.erase o } :: rest
    else bk :: removeObject rest b o

/-! ### `_ensure_folder_in_bucket` and `_ensure_buckets_and_folders` -/

/-- `folder_name += '/'` unless it already ends with `'/'`. -/
def withSlash (folder : String) : String :=
  if pyEndsWithSlash folder then folder else folder ++ "/"

/-- `MinIOStorage._ensure_folder_in_bucket`: ensure the trailing slash; if no
object of the bucket carries that prefix, create a zero-byte object of that
exact name as folder marker.  When the bucket does not exist,
`client.list_objects` raises `S3Error` at its first `next(...)`; the
function catches it on the spot and returns with the state unchanged. -/
def ensureFolderInBucket (st : MinioState) (bucket_name folder_name : String) : MinioState :=
  let folder := withSlash folder_name
  if bucketExists st bucket_name then
    if hasObjWithPfx st bucket_name folder then st
    else addObject st bucket_name folder
  else st

/-- Body of the `for space_name in space_names:` loop of
`_ensure_buckets_and_folders`: ensure the flow folder of the space, and,
when `space_cfg.backup` is truthy, its backup folder.  The `none` branch is
unreachable for the space names the caller iterates over (they are drawn
from the very bucket `get_space` resolves, see
`getSpace_isSome_of_mem_listSpaceNames`); in Python a `None` here would
raise `AttributeError`, caught by the enclosing handler. -/
def ensureSpaceFolders (cfg : MinIOConfig) (st : MinioState) (bucket_name space_name : String) :
    MinioState :=
  match getSpace cfg bucket_name space_name with
  | none => st
  | some space_cfg =>
    let st1 := ensureFolderInBucket st bucket_name
      (space_name ++ "/" ++ space_cfg.flow_dir_name)
    if pyTruthy space_cfg.backup then
      ensureFolderInBucket st1 bucket_name
        (space_name ++ "/" ++ space_cfg.backup_dir_name)
    else st1

/-- Body of the `for bucket_name in bucket_names:` loop of
`_ensure_buckets_and_folders`: create the bucket if missing, then ensure the
folders of each of its configured spaces. -/
def ensureBucketStep (cfg : MinIOConfig) (st : MinioState) (bucket_name : String) : MinioState :=
  let st1 := if bucketExists st bucket_name then st else makeBucket st bucket_name
  (listSpaceNames cfg bucket_name).foldl
    (fun s space_name => ensureSpaceFolders cfg s bucket_name space_name) st1

/-- `MinIOStorage._ensure_buckets_and_folders` (run by `__init__`). -/
def ensureBucketsAndFolders (cfg : MinIOConfig) (st : MinioState) : MinioState :=
  (listBucketNames cfg).foldl (fun s bucket_name => ensureBucketStep cfg s bucket_name) st

/-! ### `pathlib.Path` suffix/stem and `os.path.splitext` -/

/-- The final path component (`pathlib.PurePath.name`). -/
def lastComponent (s : List Char) : List Char :=
  (s.reverse.takeWhile (fun c => c ≠ '/')).reverse

/-- `(Path(s).stem, Path(s).suffix)`: split the final component at its last
dot, provided that dot is neither the first nor the last character of the
component (CPython's `0 < i < len(name) - 1` test on `name.rfind('.')`). -/
def pathSplit (s : List Char) : List Char × List Char :=
  let name := lastComponent s
  let tailAfterDot := name.reverse.takeWhile (fun c => c ≠ '.')
  if tailAfterDot.length = name.length then (name, [])
  else
    let i := name.length - tailAfterDot.length - 1
    if 0 < i ∧ i < name.length - 1 then (name.take i, name.drop i) else (name, [])

/-- `Path(s).stem`. -/
def pathStemS (s : String) : String := ⟨(pathSplit s.data).1⟩

/-- `Path(s).suffix`. -/
def pathSuffixS (s : String) : String := ⟨(pathSplit s.data).2⟩

/-- `os.path.splitext(s)[0]` (posixpath): cut at the last dot of the final
component, provided some character of the component strictly before that dot
is not itself a dot (CPython's `filenameIndex` scan). -/
def splitextRoot (s : List Char) : List Char :=
  let basename := (s.reverse.takeWhile (fun c => c ≠ '/')).reverse
  let afterDot := s.reverse.takeWhile (fun c => c ≠ '.')
  if afterDot.length < basename.length then
    let j := basename.length - afterDot.length - 1
    if (basename.take j).any (fun c => c ≠ '.') then s.take (s.length - afterDot.length - 1)
    else s
  else s

/-- `os.path.splitext(s)[0]` on `String`. -/
def splitextRootS (s : String) : String := ⟨splitextRoot s.data⟩

/-! ### `put_object` and the unbound name `os`

`minio_client.py` references `os` in `_ensure_local_storage_folder`,
`put_object`, `pull_object_flow` and `pull_object_archive`, but its only
`import os` statement sits inside the `if __name__ == '__main__':` block at
the bottom of the file.  When the module is imported (the only way a
`MinIOStorage` is ever constructed), that block does not run, so the name
`os` is not bound in the module namespace and its first evaluation raises
`NameError`. -/

/-- Whether the name `os` is bound in the module namespace of
`minio_client.py` when `MinIOStorage` methods run: it is not. -/
def osBoundInMinioClient : Bool := false

/-- `MinIOStorage._ensure_local_storage_folder`.  The `try` body evaluates
`os.path.join(...)` ; since `os` is unbound this raises `NameError`, which the
`except Exception` arm catches, logging and returning `None`.  The normal
branch (dead code) would return the `inspect`-derived directory of the module
file joined with `"minio_local_storage"`; that external directory is supplied
abstractly as `inspectDir`. -/
def ensureLocalStorageFolder (inspectDir : String) : Option String :=
  if osBoundInMinioClient then some (inspectDir ++ "/" ++ "minio_local_storage") else none

/-- `MinIOStorage._upload_object`: `fput_object` creates the remote object;
`S3Error` / other failures are caught inside the function and leave the
state unchanged (the missing-bucket no-op of `addObject` models the only
failure the state model can express). -/
def uploadObject (st : MinioState) (bucket_name object_path_remote : String) : MinioState :=
  addObject st bucket_name object_path_remote

/-- The `try` body of `MinIOStorage.put_object`, as a state transformer that
can raise.  An error value carries the state at the moment of the raise.
`localFileExists` embeds `os.path.exists` over the local filesystem, and
`timestamp` the `datetime.utcnow().strftime(...)[:-3]` value (both external).
The very first statement evaluates the unbound name `os`, so with
`osBoundInMinioClient = false` the body raises `NameError` immediately;
the remaining translation (the upload and backup-naming logic) is the dead
code after that raise.  (Had `os` been bound, `self.local_storage_folder`
is `None`, and `os.path.join(None, ...)` raises `TypeError` instead.) -/
def putObjectBody (cfg : MinIOConfig) (localFileExists : String → Bool) (timestamp : String)
    (local_storage_folder : Option String) (st : MinioState)
    (bucket_name space_name object_name_local : String)
    (new_object_name_remote : Option String) :
    Except (PyErr × MinioState) MinioState :=
  if osBoundInMinioClient = false then .error (.nameError, st)
  else
    match local_storage_folder with
    | none => .error (.typeError, st)
    | some folder =>
      let object_local_path := folder ++ "/" ++ object_name_local
      if localFileExists object_local_path = false then .error (.fileNotFoundError, st)
      else
        match getFlowDirName cfg bucket_name space_name with
        | none => .error (.typeError, st)
        | some flow_dir_name =>
          let flow_dir_path := space_name ++ "/" ++ flow_dir_name
          let object_flow_path :=
            match new_object_name_remote with
            | some n => flow_dir_path ++ "/" ++ n
            | none => flow_dir_path ++ "/" ++ object_name_local
          let st1 := uploadObject st bucket_name object_flow_path
          if getBackup cfg bucket_name space_name then
            match getBackupDirName cfg bucket_name space_name with
            | none => .error (.typeError, st1)
            | some backup_dir_name =>
              let backup_dir_path := space_name ++ "/" ++ backup_dir_name
              let ext := pathSuffixS object_name_local
              let object_name := pathStemS object_name_local
              let p := backup_dir_path ++ "/" ++ object_name ++ "-" ++ timestamp ++ ext
              let object_path_bck :=
                if objectExistsB st1 bucket_name p then splitextRootS p ++ "_" ++ ext
                else p
              .ok (uploadObject st1 bucket_name object_path_bck)
          else .ok st1

/-- `MinIOStorage.put_object`: run the body; the trailing
`except S3Error` / `except Exception` arms catch every raise, log, and
`return None`.  The Python function returns `None` on every path, so the
model returns only the final MinIO state. -/
def putObject (cfg : MinIOConfig) (localFileExists : String → Bool) (timestamp : String)
    (inspectDir : String) (st : MinioState)
    (bucket_name space_name object_name_local : String)
    (new_object_name_remote : Option String) : MinioState :=
  match putObjectBody cfg localFileExists timestamp (ensureLocalStorageFolder inspectDir) st
      bucket_name space_name object_name_local new_object_name_remote with
  | .ok st' => st'
  | .error (_, st') => st'

/-! ### `delete_object_flow` / `delete_object_archive` -/

/-- `MinIOStorage.delete_object_flow`.  A `None` flow dir name makes
`space_name + "/" + None` raise `TypeError`, caught by `except Exception`;
a failing `stat_object` raises `S3Error`, and both arms of the
`except S3Error as e` handler return `False`. -/
def deleteObjectFlow (cfg : MinIOConfig) (st : MinioState)
    (bucket_name space_name object_name : String) : Bool × MinioState :=
  match getFlowDirName cfg bucket_name space_name with
  | none => (false, st)
  | some flow_dir_name =>
    let object_path := space_name ++ "/" ++ flow_dir_name ++ "/" ++ object_name
    match statObject st bucket_name object_path with
    | .ok _ => (true, removeObject st bucket_name object_path)
    | .error _ => (false, st)

/-- `MinIOStorage.delete_object_archive`.  Its `except S3Error as e3:`
handler returns `False` for codes `NoSuchKey` / `NotFound`, but its other
arm interpolates `{e}` into the log message while the exception was bound as
`e3` — `e` is an unassigned local there, so that arm raises `NameError`
**out of the method** (a later `except` arm of the same `try` never catches
an exception raised inside an earlier handler).  The result is therefore an
`Except`: `.error .nameError` on any `S3Error` outside those two codes. -/
def deleteObjectArchive (cfg : MinIOConfig) (st : MinioState)
    (bucket_name space_name object_name : String) : Except PyErr (Bool × MinioState) :=
  match getBackupDirName cfg bucket_name space_name with
  | none => .ok (false, st)
  | some backup_dir_name =>
    let object_path := space_name ++ "/" ++ backup_dir_name ++ "/" ++ object_name
    match statObject st bucket_name object_path with
    | .ok _ => .ok (true, removeObject st bucket_name object_path)
    | .error (.s3Error code) =>
      if code = "NoSuchKey" || code = "NotFound" then .ok (false, st)
      else .error .nameError
    | .error _ => .ok (false, st)

/-! ### `reset_minio`

`remove_objects` streams per-object deletions and yields per-object errors,
which the code logs without raising; an injected failure predicate
`failDel bucket object` marks the objects whose deletion fails.  Objects
whose deletion failed are still in the bucket when `remove_bucket` runs, so
it raises `S3Error` (bucket not empty), caught by the `except S3Error` arm
which returns `False`.  `list_objects` on a bucket that no longer exists
raises `S3Error` when iterated, with the same `False` outcome. -/

/-- `remove_objects(bucket, all objects of the bucket)`: the objects whose
deletion fails (per `failDel`) remain. -/
def removeBucketObjs (failDel : String → String → Bool) : MinioState → String → MinioState
  | [], _ => []
  | bk :: rest, b =>
    if bk.name = b then { bk with objs := bk.objs.filter (fun o => failDel b o) } :: rest
    else bk :: removeBucketObjs failDel rest b

/-- `client.remove_bucket`: drop the (first) bucket with the given name. -/
def removeBucketSt : MinioState → String → MinioState
  | [], _ => []
  | bk :: rest, b => if bk.name = b then rest else bk :: removeBucketSt rest b

/-- The `for bucket in buckets:` loop of `reset_minio` over the snapshot of
bucket names, threading the instance state; the first `S3Error`
(missing bucket while listing, or non-empty bucket at `remove_bucket`)
aborts with `False`. -/
def resetLoop (failDel : String → String → Bool) : MinioState → List String → Bool × MinioState
  | st, [] => (true, st)
  | st, b :: rest =>
    if bucketExists st b = false then (false, st)
    else
      let st1 := removeBucketObjs failDel st b
      if getObjs st1 b = [] then resetLoop failDel (removeBucketSt st1 b) rest
      else (false, st1)

/-- `MinIOStorage.reset_minio`: snapshot `list_buckets()`, then run the
deletion loop; any `S3Error` or other exception is caught and turned into
`False` (built into `resetLoop`), success returns `True`. -/
def resetMinio (failDel : String → String → Bool) (st : MinioState) : Bool × MinioState :=
  resetLoop failDel st (st.map (·.name))

/-! ## `etl_quotes/a_extract/scraper.py`: the paginated crawl

HTML mechanics (HTTP, BeautifulSoup) are external collaborators; a fetched
page is modelled by the features the scraper reads from it: its quote `div`
elements and its `li.next` pagination element. -/

/-- `etl_quotes/models/raw_models/raw_quote.py` `RawQuote` (the
`scraped_at` timestamp, a `datetime.now` default, is external and omitted). -/
structure RawQuote where
  text : String
  author : String
  author_url : String
  tags : List String
  utl_page : String := ""
deriving DecidableEq

/-- A `div.quote` element, by the features `_parse_quote` reads:
the `span.text` content, the `small.author` content, the `href` of the first
`a[href]` element, and the texts of the `a.tag` links of the `div.tags`
element (each `Option` is the corresponding `find` returning an element or
`None`). -/
structure QuoteDiv where
  textElem : Option String
  authorElem : Option String
  hrefElem : Option String
  tagsDiv : Option (List String)
deriving DecidableEq

/-- A parsed page (`BeautifulSoup` value), by the features the crawl reads:
its quote divs, and its pagination: `nextHref = none` when there is no
`li.next` element, `some none` when `li.next` has no `a[href]`, and
`some (some href)` otherwise. -/
structure Soup where
  quoteDivs : List QuoteDiv
  nextHref : Option (Option String)
deriving DecidableEq

/-- The external world the scraper runs against: the result of `_fetch` for
each URL (`none` both when the page is missing and when the HTTP layer
failed — `_fetch` returns `None` in either case, see `fetchOnce`), the
external `urllib.parse.urljoin`, and `scraper_config.base_url_quotes`. -/
structure WebEnv where
  fetch : String → Option Soup
  urljoin : String → String → String
  baseUrl : String

/-- `QuotesScraper._parse_quote`.  Nothing in the embedded element model can
raise, so the `except` arm returning `None` is unreachable and the result is
always a quote. -/
def parseQuote (env : WebEnv) (element : QuoteDiv) : Option RawQuote :=
  let text :=
    match element.textElem with
    | some t => cleanTextS t
    | none => ""
  let author :=
    match element.authorElem with
    | some a => stripS a
    | none => "Unknown"
  let author_url :=
    match element.hrefElem with
    | some href => if containsSubS "/author/" href then env.urljoin env.baseUrl href else ""
    | none => ""
  let tags :=
    match element.tagsDiv with
    | some tagTexts => tagTexts.map stripS
    | none => []
  some { text := text, author := author, author_url := author_url, tags := tags }

/-- `QuotesScraper._get_next_page`. -/
def getNextPage (env : WebEnv) (soup : Soup) : Option String :=
  match soup.nextHref with
  | some (some href) => some (env.urljoin env.baseUrl href)
  | some none => none
  | none => none

/-- The `while url and page <= max_pages:` loop of `scrape_all_quotes`.
`page` starts at 1 and increases by 1 each iteration, so with limit `m` the
loop body runs at most `max m 0` times; `fuel` is the number of page values
still satisfying `page <= max_pages`.  The loop also stops when `url` is
falsy (`None` or the empty string) and when `_fetch` returns `None`. -/
def scrapeLoop (env : WebEnv) : Nat → Option String → List RawQuote
  | 0, _ => []
  | _ + 1, none => []
  | n + 1, some url =>
    if url = "" then []
    else
      match env.fetch url with
      | none => []
      | some soup =>
        soup.quoteDivs.filterMap
          (fun d => (parseQuote env d).map (fun q => { q with utl_page := url }))
          ++ scrapeLoop env n (getNextPage env soup)

/-- The URLs passed to `_fetch` by `scrapeLoop` (one per loop iteration). -/
def fetchTrace (env : WebEnv) : Nat → Option String → List String
  | 0, _ => []
  | _ + 1, none => []
  | n + 1, some url =>
    if url = "" then []
    else
      match env.fetch url with
      | none => [url]
      | some soup => url :: fetchTrace env n (getNextPage env soup)

/-- `max_pages = max_pages or scraper_config.max_pages`: Python `or` keeps a
truthy left operand, so both `None` and `0` are replaced by the default 20. -/
def effectiveMaxPages : Option Int → Int
  | none => scraperConfigMaxPages
  | some n => if n = 0 then scraperConfigMaxPages else n

/-- `QuotesScraper.scrape_all_quotes` (the generator, fully forced into the
list of quotes it yields). -/
def scrapeAllQuotes (env : WebEnv) (max_pages : Option Int) : List RawQuote :=
  scrapeLoop env (effectiveMaxPages max_pages).toNat (some env.baseUrl)

/-- The pages `scrape_all_quotes` fetches. -/
def fetchedPages (env : WebEnv) (max_pages : Option Int) : List String :=
  fetchTrace env (effectiveMaxPages max_pages).toNat (some env.baseUrl)

/-! ### `_fetch` and its tenacity retry decorator -/

/-- Outcome of one raw HTTP attempt inside `_fetch`: a parsed page, a raised
`requests.RequestException`, or any other raised exception. -/
inductive FetchOutcome where
  | success (soup : Soup)
  | httpRaises
  | otherRaises
deriving DecidableEq

/-- One invocation of the **decorated function body** of `_fetch`: its
`try` wraps the whole body, `except requests.RequestException` and
`except Exception` both log and fall off the end, so the body returns
normally (`None`) on every failure and never lets an exception escape. -/
def fetchOnce : FetchOutcome → Except PyErr (Option Soup)
  | .success soup => .ok (some soup)
  | .httpRaises => .ok none
  | .otherRaises => .ok none

/-- Tenacity retry driver: run attempt number `attempt` of `f`; on a raise,
re-invoke while the remaining-attempt budget lasts, then re-raise.  Returns
the number of invocations made together with the final outcome. -/
def retryRun (f : Nat → Except PyErr (Option Soup)) (attempt : Nat) :
    Nat → Nat × Except PyErr (Option Soup)
  | 0 => (1, f attempt)
  | budget + 1 =>
    match f attempt with
    | .ok a => (1, .ok a)
    | .error _ =>
      let r := retryRun f (attempt + 1) budget
      (r.1 + 1, r.2)

/-- `@retry(stop=stop_after_attempt(s), ...)`: at most `s` invocations of
the wrapped function (the `wait_exponential` delays are real time and play
no role in the result). -/
def tenacityRetry (stopAfter : Nat) (f : Nat → Except PyErr (Option Soup)) :
    Nat × Except PyErr (Option Soup) :=
  retryRun f 1 (stopAfter - 1)

/-- `_fetch` as called by the scraper: the decorated body under
`stop_after_attempt(2)`, where `outcomes k` is what the HTTP layer does on
attempt number `k`. -/
def decoratedFetch (outcomes : Nat → FetchOutcome) : Nat × Except PyErr (Option Soup) :=
  tenacityRetry 2 (fun k => fetchOnce (outcomes k))

/-! ## Auxiliary predicates and concrete instances used by the statements -/

/-- The head of the list exists and satisfies `p`. -/
def headSat (p : Char → Bool) : List Char → Bool
  | [] => false
  | c :: _ => p c

/-- The string begins or ends with a decorative quotation mark. -/
def boundaryQuote (s : List Char) : Bool :=
  headSat isQuoteMark s || headSat isQuoteMark s.reverse

/-- A configuration with two buckets of the same name, the first of which
lacks the space: `get_space` resolves nothing for `("b", "s")`, while the
fall-through scans of `get_flow_dir_name` / `get_backup` /
`get_backup_dir_name` continue into the second bucket. -/
def cexCfg : MinIOConfig :=
  { buckets :=
      [ { name := "b", spaces := [] }
      , { name := "b"
          spaces := [ { name := "s", flow_dir_name := "fA"
                        backup_dir_name := "bA", backup := .pybool true } ] } ] }

/-- A web environment holding exactly one page, with no next-page link. -/
def onePageEnv : WebEnv :=
  { fetch := fun u => if u = "base" then some { quoteDivs := [], nextHref := none } else none
    urljoin := fun _ href => href
    baseUrl := "base" }

/-! # Theorems -/

/-! ## Claim C2 — `os` unbound: `_ensure_local_storage_folder` and `put_object` are inert -/

/-- Claim C2: for every constructed `MinIOStorage`, `_ensure_local_storage_folder`
takes its exception branch (the name `os` is not bound in the module
namespace of `minio_client.py` when it runs), so it returns `None` and
`self.local_storage_folder` is `None`; consequently, for all arguments,
`put_object` raises no exception to the caller (its trailing handlers catch
the `NameError`, which is why the model is a total function into
`MinioState` and not an `Except`), uploads nothing (the MinIO state is
returned unchanged), and returns `None` (the Python function returns `None`
on every path). -/
theorem claim2_put_object_inert
    (cfg : MinIOConfig) (localFileExists : String → Bool)
    (timestamp inspectDir : String) (st : MinioState)
    (bucket_name space_name object_name_local : String)
    (new_object_name_remote : Option String) :
    ensureLocalStorageFolder inspectDir = none ∧
    putObject cfg localFileExists timestamp inspectDir st
      bucket_name space_name object_name_local new_object_name_remote = st :=
  ⟨rfl, rfl⟩

/-! ## Claim C1 — `put_object` never uploads (code bug: `import os` sits in the
`__main__` block) -/

/-- Claim C1 (code bug witness): at a concrete call where the local file
exists and the static configuration maps `("bucket-bronze",
"space-site-quotes")` to a space with `backup = True`, `put_object` leaves
the freshly provisioned MinIO state unchanged: no flow copy appears under
`space-site-quotes/flow-dir/` and no backup copy appears, because the body's
first statement evaluates the unbound name `os` and the resulting
`NameError` is caught into `return None`. -/
theorem claim1_put_object_uploads_nothing :
    putObject staticMinioCfg (fun _ => true) "20260101_000000_000" "/app/storage"
        (ensureBucketsAndFolders staticMinioCfg [])
        "bucket-bronze" "space-site-quotes" "quotes.json" none
      = ensureBucketsAndFolders staticMinioCfg [] ∧
    hasObjWithPfx
        (putObject staticMinioCfg (fun _ => true) "20260101_000000_000" "/app/storage"
          (ensureBucketsAndFolders staticMinioCfg [])
          "bucket-bronze" "space-site-quotes" "quotes.json" none)
        "bucket-bronze" "space-site-quotes/flow-dir/quotes.json" = false :=
  ⟨rfl, by decide⟩

/-! ## Claim C5 — deletions: `delete_object_flow` returns `False` on errors,
`delete_object_archive` raises `NameError` on S3 errors outside
`NoSuchKey`/`NotFound` (code bug: handler bound the exception as `e3` but
logs `{e}`) -/

/-- Claim C5 (code bug witness): on a MinIO instance without the bucket,
`stat_object` raises `S3Error` with code `NoSuchBucket`; `delete_object_flow`
returns `False` as claimed, but `delete_object_archive` raises `NameError`
out of the method instead of returning `False` (its non-`NoSuchKey` handler
arm reads the unassigned local `e`).  On an existing bucket without the
object (`NoSuchKey`), `delete_object_archive` does return `False`. -/
theorem claim5_delete_archive_raises :
    deleteObjectArchive staticMinioCfg [] "bucket-bronze" "space-site-quotes" "q.json"
      = .error .nameError ∧
    deleteObjectFlow staticMinioCfg [] "bucket-bronze" "space-site-quotes" "q.json"
      = (false, []) ∧
    deleteObjectArchive staticMinioCfg [{ name := "bucket-bronze", objs := [] }]
        "bucket-bronze" "space-site-quotes" "q.json"
      = .ok (false, [{ name := "bucket-bronze", objs := [] }]) := by
  refine ⟨rfl, by decide, rfl⟩

/-! ## Claim C8 — the retry decorator never retries (code bug: `_fetch`
swallows every exception internally) -/

/-- Claim C8 (code bug witness): `_fetch`'s own `try`/`except` arms catch
`requests.RequestException` and every other exception and return `None`
normally, so the tenacity decorator — which only re-invokes on a raise —
performs exactly one invocation for **every** behaviour of the HTTP layer;
in particular, when the HTTP request raises on each attempt, the caller
observes `None` after a single attempt and no re-invocation happens. -/
theorem claim8_retry_never_fires :
    (∀ outcomes : Nat → FetchOutcome, (decoratedFetch outcomes).1 = 1) ∧
    decoratedFetch (fun _ => .httpRaises) = (1, .ok none) := by
  constructor
  · intro outcomes
    show (retryRun (fun k => fetchOnce (outcomes k)) 1 1).1 = 1
    unfold retryRun
    cases outcomes 1 <;> rfl
  · rfl

/-! ## Claim C10 — `max_pages = 0` falls back to the default limit 20 -/

/-- Claim C10: calling `scrape_all_quotes` with `max_pages = 0` does not
scrape zero pages: `max_pages or scraper_config.max_pages` replaces the
falsy `0` by the default, so the crawl runs exactly as with the limit
`ScraperConfig.max_pages = 20` (and as with `max_pages = None`); against a
web environment holding one page, one page is fetched. -/
theorem claim10_zero_pages_uses_default :
    effectiveMaxPages (some 0) = 20 ∧
    (∀ env : WebEnv,
        scrapeAllQuotes env (some 0) = scrapeAllQuotes env (some 20) ∧
        fetchedPages env (some 0) = fetchedPages env (some 20) ∧
        scrapeAllQuotes env (some 0) = scrapeAllQuotes env none) ∧
    (fetchedPages onePageEnv (some 0)).length = 1 := by
  refine ⟨rfl, fun env => ⟨rfl, rfl, rfl⟩, by decide⟩

/-! ## Claim C7 — the crawl terminates and fetches at most `max_pages` pages -/

/-- Each iteration of the crawl loop consumes one unit of fuel, so at most
`fuel` pages are fetched. -/
theorem fetchTrace_length_le (env : WebEnv) (fuel : Nat) :
    ∀ url : Option String, (fetchTrace env fuel url).length ≤ fuel := by
  induction fuel with
  | zero =>
    intro url
    cases url <;> simp [fetchTrace]
  | succ n ih =>
    intro url
    cases url with
    | none => simp [fetchTrace]
    | some u =>
      by_cases hu : u = ""
      · simp [fetchTrace, hu]
      · cases hf : env.fetch u with
        | none => simp [fetchTrace, hu, hf]
        | some soup =>
          simp only [fetchTrace, hu, if_neg hu, hf, List.length_cons]
          exact Nat.succ_le_succ (ih _)

/-- Claim C7: `scrape_all_quotes` with a positive integer `max_pages`
terminates (the loop is the total function `scrapeLoop`, structurally
recursive on its fuel, which counts the page values satisfying
`page <= max_pages`) and fetches at most `max_pages` pages; the loop stops
early when a fetch yields no page or the page has no (truthy) next-page
link, and when `max_pages` is `None` the limit used is
`ScraperConfig.max_pages`, which is 20. -/
theorem claim7_crawl_bounded (env : WebEnv) (n : Int) (h : 0 < n) :
    (fetchedPages env (some n)).length ≤ n.toNat ∧
    effectiveMaxPages none = scraperConfigMaxPages ∧
    scraperConfigMaxPages = 20 := by
  refine ⟨?_, rfl, rfl⟩
  have hn : effectiveMaxPages (some n) = n := by
    have : n ≠ 0 := by omega
    simp [effectiveMaxPages, this]
  unfold fetchedPages
  rw [hn]
  exact fetchTrace_length_le env n.toNat _

/-- Witness for C7 at `max_pages = 3` against the one-page environment. -/
theorem claim7_crawl_bounded_witness :
    (0 : Int) < 3 ∧
    ((fetchedPages onePageEnv (some 3)).length ≤ (3 : Int).toNat ∧
      effectiveMaxPages none = scraperConfigMaxPages ∧
      scraperConfigMaxPages = 20) :=
  ⟨by decide, claim7_crawl_bounded onePageEnv 3 (by decide)⟩

/-! ## Claim C9 — `_clean_text` is not idempotent -/

/-- After dropping a maximal leading run of `p`-characters, the head (if
any) no longer satisfies `p`. -/
theorem headSat_dropWhile (p : Char → Bool) :
    ∀ l : List Char, headSat p (l.dropWhile p) = false := by
  intro l
  induction l with
  | nil => rfl
  | cons c cs ih =>
    by_cases h : p c
    · simpa [List.dropWhile, h] using ih
    · simp [List.dropWhile, h, headSat]

/-- Dropping a leading run is the identity when the head already fails `p`. -/
theorem dropWhile_eq_self_of_headSat (p : Char → Bool) (l : List Char)
    (h : headSat p l = false) : l.dropWhile p = l := by
  cases l with
  | nil => rfl
  | cons c cs =>
    simp only [headSat] at h
    simp [List.dropWhile, h]

/-- Dropping a trailing run is the identity when the last character already
fails `p`. -/
theorem dropTrailing_eq_self (p : Char → Bool) (s : List Char)
    (h : headSat p s.reverse = false) : dropTrailing p s = s := by
  unfold dropTrailing
  rw [dropWhile_eq_self_of_headSat p _ h, List.reverse_reverse]

/-- After dropping a maximal trailing run of `p`-characters, the last
character (if any) no longer satisfies `p`. -/
theorem headSat_reverse_dropTrailing (p : Char → Bool) (s : List Char) :
    headSat p (dropTrailing p s).reverse = false := by
  unfold dropTrailing
  rw [List.reverse_reverse]
  exact headSat_dropWhile p _

/-- `dropWhile` removes a leading run: some prefix `t` restores the list. -/
theorem dropWhile_restore (p : Char → Bool) :
    ∀ l : List Char, ∃ t, t ++ l.dropWhile p = l := by
  intro l
  induction l with
  | nil => exact ⟨[], rfl⟩
  | cons c cs ih =>
    by_cases h : p c
    · obtain ⟨t, ht⟩ := ih
      exact ⟨c :: t, by simp [List.dropWhile, h, ht]⟩
    · exact ⟨[], by simp [List.dropWhile, h]⟩

/-- `dropTrailing` removes a trailing run: some suffix `t` restores the list. -/
theorem dropTrailing_restore (q : Char → Bool) (s : List Char) :
    ∃ t, dropTrailing q s ++ t = s := by
  obtain ⟨t, ht⟩ := dropWhile_restore q s.reverse
  refine ⟨t.reverse, ?_⟩
  have h2 : (t ++ s.reverse.dropWhile q).reverse = s.reverse.reverse := by rw [ht]
  simpa [dropTrailing, List.reverse_append] using h2

/-- The head of `l₁ ++ t` failing `p` means the head of `l₁` fails `p`. -/
theorem headSat_append_left (p : Char → Bool) (l₁ t : List Char)
    (h : headSat p (l₁ ++ t) = false) : headSat p l₁ = false := by
  cases l₁ with
  | nil => rfl
  | cons c cs => simpa [headSat] using h

/-- `dropTrailing` keeps the head failing `p` (for any trailing predicate). -/
theorem headSat_dropTrailing_of (p q : Char → Bool) (s : List Char)
    (h : headSat p s = false) : headSat p (dropTrailing q s) = false := by
  obtain ⟨t, ht⟩ := dropTrailing_restore q s
  apply headSat_append_left p (dropTrailing q s) t
  rw [ht]
  exact h

/-- The output of `str.strip()` neither begins nor ends with whitespace. -/
theorem pyStrip_no_boundary_space (s : List Char) :
    headSat isPySpace (pyStrip s) = false ∧
    headSat isPySpace (pyStrip s).reverse = false := by
  constructor
  · exact headSat_dropTrailing_of _ _ _ (headSat_dropWhile _ s)
  · exact headSat_reverse_dropTrailing _ _

/-- `str.strip()` is the identity on a string with no boundary whitespace. -/
theorem pyStrip_eq_self (s : List Char)
    (h1 : headSat isPySpace s = false) (h2 : headSat isPySpace s.reverse = false) :
    pyStrip s = s := by
  unfold pyStrip
  rw [dropWhile_eq_self_of_headSat _ _ h1]
  exact dropTrailing_eq_self _ _ h2

/-- The quote-run removal is the identity on a string with no boundary
decorative quotation mark. -/
theorem subQuoteRuns_eq_self (s : List Char)
    (h1 : headSat isQuoteMark s = false) (h2 : headSat isQuoteMark s.reverse = false) :
    subQuoteRuns s = s := by
  unfold subQuoteRuns
  rw [dropWhile_eq_self_of_headSat _ _ h1]
  exact dropTrailing_eq_self _ _ h2

/-- Counterexample to claim C9 as stated: `_clean_text` is **not**
idempotent.  On `'" "x" "'` one application yields `'"x"'` (the inner quotes
become boundary quotes only after the exposed whitespace is stripped), and a
second application yields `'x'`. -/
theorem claim9_counterexample :
    ¬ (cleanTextS (cleanTextS "\" \"x\" \"") = cleanTextS "\" \"x\" \"") := by
  decide

/-- Claim C9 as amended: one application of `_clean_text` strips surrounding
whitespace, removes the maximal leading and trailing runs of decorative
quotation marks, and strips the newly exposed whitespace; a second
application changes nothing **provided** the first result does not itself
begin or end with a decorative quotation mark (full idempotence fails, see
the counterexample). -/
theorem claim9_clean_text_conditional_idem (t : List Char)
    (h : boundaryQuote (cleanText t) = false) :
    cleanText (cleanText t) = cleanText t := by
  have hsp := pyStrip_no_boundary_space (subQuoteRuns (pyStrip t))
  have h1 : headSat isPySpace (cleanText t) = false := hsp.1
  have h2 : headSat isPySpace (cleanText t).reverse = false := hsp.2
  have hq : headSat isQuoteMark (cleanText t) = false ∧
      headSat isQuoteMark (cleanText t).reverse = false := by
    simpa [boundaryQuote, Bool.or_eq_false_iff] using h
  show pyStrip (subQuoteRuns (pyStrip (cleanText t))) = cleanText t
  rw [pyStrip_eq_self _ h1 h2, subQuoteRuns_eq_self _ hq.1 hq.2]
  exact pyStrip_eq_self _ h1 h2

/-- Witness for the amended C9 on `'  "hello"  '`, whose cleaned form
`hello` has no boundary quotation mark. -/
theorem claim9_clean_text_conditional_idem_witness :
    boundaryQuote (cleanText ("  \"hello\"  ".data)) = false ∧
    cleanText (cleanText ("  \"hello\"  ".data)) = cleanText ("  \"hello\"  ".data) :=
  ⟨by decide, claim9_clean_text_conditional_idem _ (by decide)⟩

/-! ## Claim C6 — the resolver lookups -/

/-- A successful scan of the first list wins over the appended one. -/
theorem spaceScan_append_some (l₁ l₂ : List SpaceConfig) (s : String) (sp : SpaceConfig)
    (h : spaceScan l₁ s = some sp) : spaceScan (l₁ ++ l₂) s = some sp := by
  induction l₁ with
  | nil => exact absurd h (by simp [spaceScan])
  | cons x rest ih =>
    by_cases hx : x.name = s
    · simpa [spaceScan, hx] using h
    · rw [spaceScan, if_neg hx] at h
      simpa [spaceScan, hx] using ih h

/-- A failed scan of the first list falls through to the appended one. -/
theorem spaceScan_append_none (l₁ l₂ : List SpaceConfig) (s : String)
    (h : spaceScan l₁ s = none) : spaceScan (l₁ ++ l₂) s = spaceScan l₂ s := by
  induction l₁ with
  | nil => rfl
  | cons x rest ih =>
    by_cases hx : x.name = s
    · rw [spaceScan, if_pos hx] at h
      exact absurd h (by simp)
    · rw [spaceScan, if_neg hx] at h
      simpa [spaceScan, hx] using ih h

/-- `get_bucket` is first-match search. -/
theorem bucketScan_eq_find (b : String) :
    ∀ bs : List BucketConfig, bucketScan bs b = bs.find? (fun bk => bk.name == b) := by
  intro bs
  induction bs with
  | nil => rfl
  | cons bk rest ih =>
    by_cases h : bk.name = b
    · rw [List.find?_cons_of_pos _ (by simpa using h), bucketScan, if_pos h]
    · rw [List.find?_cons_of_neg _ (by simpa using h), bucketScan, if_neg h, ih]

/-- The inner space loops are first-match search. -/
theorem spaceScan_eq_find (s : String) :
    ∀ sps : List SpaceConfig, spaceScan sps s = sps.find? (fun sp => sp.name == s) := by
  intro sps
  induction sps with
  | nil => rfl
  | cons sp rest ih =>
    by_cases h : sp.name = s
    · rw [List.find?_cons_of_pos _ (by simpa using h), spaceScan, if_pos h]
    · rw [List.find?_cons_of_neg _ (by simpa using h), spaceScan, if_neg h, ih]

/-- The fall-through double loop of `get_flow_dir_name` resolves the first
matching space across **all** buckets with the requested name. -/
theorem flowDirScan_eq_cross (b s : String) :
    ∀ bs : List BucketConfig,
      flowDirScan bs b s =
        (spaceScan ((bs.filter (fun bk => bk.name = b)).flatMap (·.spaces)) s).map
          SpaceConfig.flow_dir_name := by
  intro bs
  induction bs with
  | nil => rfl
  | cons bk rest ih =>
    by_cases h : bk.name = b
    · rw [flowDirScan, if_pos h]
      have hf : (bk :: rest).filter (fun bk => bk.name = b) =
          bk :: rest.filter (fun bk => bk.name = b) := by simp [List.filter_cons, h]
      rw [hf, List.flatMap_cons]
      cases hsc : spaceScan bk.spaces s with
      | some sp =>
        rw [spaceScan_append_some _ _ _ _ hsc]
        rfl
      | none =>
        rw [spaceScan_append_none _ _ _ hsc]
        simpa using ih
    · rw [flowDirScan, if_neg h]
      have hf : (bk :: rest).filter (fun bk => bk.name = b) =
          rest.filter (fun bk => bk.name = b) := by simp [List.filter_cons, h]
      rw [hf, ih]

/-- Same fall-through resolution for `get_backup_dir_name`. -/
theorem backupDirScan_eq_cross (b s : String) :
    ∀ bs : List BucketConfig,
      backupDirScan bs b s =
        (spaceScan ((bs.filter (fun bk => bk.name = b)).flatMap (·.spaces)) s).map
          SpaceConfig.backup_dir_name := by
  intro bs
  induction bs with
  | nil => rfl
  | cons bk rest ih =>
    by_cases h : bk.name = b
    · rw [backupDirScan, if_pos h]
      have hf : (bk :: rest).filter (fun bk => bk.name = b) =
          bk :: rest.filter (fun bk => bk.name = b) := by simp [List.filter_cons, h]
      rw [hf, List.flatMap_cons]
      cases hsc : spaceScan bk.spaces s with
      | some sp =>
        rw [spaceScan_append_some _ _ _ _ hsc]
        rfl
      | none =>
        rw [spaceScan_append_none _ _ _ hsc]
        simpa using ih
    · rw [backupDirScan, if_neg h]
      have hf : (bk :: rest).filter (fun bk => bk.name = b) =
          rest.filter (fun bk => bk.name = b) := by simp [List.filter_cons, h]
      rw [hf, ih]

/-- Same fall-through resolution for `get_backup`. -/
theorem backupScan_eq_cross (b s : String) :
    ∀ bs : List BucketConfig,
      backupScan bs b s =
        (spaceScan ((bs.filter (fun bk => bk.name = b)).flatMap (·.spaces)) s).elim
          false (fun sp => backupIsTrueBool sp.backup) := by
  intro bs
  induction bs with
  | nil => rfl
  | cons bk rest ih =>
    by_cases h : bk.name = b
    · rw [backupScan, if_pos h]
      have hf : (bk :: rest).filter (fun bk => bk.name = b) =
          bk :: rest.filter (fun bk => bk.name = b) := by simp [List.filter_cons, h]
      rw [hf, List.flatMap_cons]
      cases hsc : spaceScan bk.spaces s with
      | some sp =>
        rw [spaceScan_append_some _ _ _ _ hsc]
        rfl
      | none =>
        rw [spaceScan_append_none _ _ _ hsc]
        simpa using ih
    · rw [backupScan, if_neg h]
      have hf : (bk :: rest).filter (fun bk => bk.name = b) =
          rest.filter (fun bk => bk.name = b) := by simp [List.filter_cons, h]
      rw [hf, ih]

/-- With at most one bucket of the requested name, the cross-bucket space
resolution coincides with `get_space`. -/
theorem cross_eq_getSpace_of_unique (b s : String) :
    ∀ bs : List BucketConfig, (bs.filter (fun bk => bk.name = b)).length ≤ 1 →
      spaceScan ((bs.filter (fun bk => bk.name = b)).flatMap (·.spaces)) s =
        (match bucketScan bs b with
          | none => none
          | some bk => spaceScan bk.spaces s) := by
  intro bs
  induction bs with
  | nil => intro _; rfl
  | cons bk rest ih =>
    intro hlen
    by_cases h : bk.name = b
    · have hf : (bk :: rest).filter (fun bk => bk.name = b) =
          bk :: rest.filter (fun bk => bk.name = b) := by simp [List.filter_cons, h]
      rw [hf, List.length_cons] at hlen
      have hnil : rest.filter (fun bk => bk.name = b) = [] := by
        have h0 : (rest.filter (fun bk => bk.name = b)).length = 0 := by omega
        exact List.length_eq_zero.mp h0
      rw [hf, hnil, bucketScan, if_pos h]
      simp
    · have hf : (bk :: rest).filter (fun bk => bk.name = b) =
          rest.filter (fun bk => bk.name = b) := by simp [List.filter_cons, h]
      rw [hf] at hlen
      rw [hf, bucketScan, if_neg h]
      exact ih hlen

/-- The `isinstance`-guarded truth test equals equality with the boolean
`True`. -/
theorem backupIsTrueBool_eq (pb : PyBackup) :
    backupIsTrueBool pb = decide (pb = PyBackup.pybool true) := by
  cases pb with
  | pybool bb => cases bb <;> rfl
  | nonBool t => rfl

/-- `get_flow_dir_name` at configuration level. -/
theorem getFlowDirName_eq_cross (cfg : MinIOConfig) (b s : String) :
    getFlowDirName cfg b s = (crossBucketSpace cfg b s).map SpaceConfig.flow_dir_name :=
  flowDirScan_eq_cross b s cfg.buckets

/-- `get_backup_dir_name` at configuration level. -/
theorem getBackupDirName_eq_cross (cfg : MinIOConfig) (b s : String) :
    getBackupDirName cfg b s = (crossBucketSpace cfg b s).map SpaceConfig.backup_dir_name :=
  backupDirScan_eq_cross b s cfg.buckets

/-- `get_backup` at configuration level. -/
theorem getBackup_eq_cross (cfg : MinIOConfig) (b s : String) :
    getBackup cfg b s =
      (crossBucketSpace cfg b s).elim false (fun sp => backupIsTrueBool sp.backup) :=
  backupScan_eq_cross b s cfg.buckets

/-- `get_space` as nested first-match search. -/
theorem getSpace_eq_find (cfg : MinIOConfig) (b s : String) :
    getSpace cfg b s =
      (cfg.buckets.find? (fun bk => bk.name == b)).bind
        (fun bk => bk.spaces.find? (fun sp => sp.name == s)) := by
  rw [getSpace, getBucket, bucketScan_eq_find]
  cases cfg.buckets.find? (fun bk => bk.name == b) with
  | none => rfl
  | some bk => exact spaceScan_eq_find s bk.spaces

/-- Counterexample to claim C6 as stated: on a configuration with two
buckets named `b`, the first of which lacks the space `s`, `get_space`
resolves `None` while `get_flow_dir_name` and `get_backup` fall through to
the second bucket — they do not return the field of "that first matching
space" (which does not exist). -/
theorem claim6_counterexample :
    ¬ (getFlowDirName cexCfg "b" "s" = claimedFlowDirName cexCfg "b" "s" ∧
       getBackup cexCfg "b" "s" = claimedBackup cexCfg "b" "s") := by
  decide

/-- Claim C6 as amended: `get_bucket` and `get_space` are first-match
search exactly as claimed; `get_flow_dir_name`, `get_backup_dir_name` and
`get_backup` resolve the first space named `s` among the spaces of **all**
buckets named `b` in configuration order (their double loops fall through
past buckets of the right name that lack the space); `get_backup` is `True`
exactly when that space exists and its `backup` field is the boolean `True`.
Whenever at most one bucket carries the name `b` — as in the static
configuration — this coincides with the claimed `get_space`-based
description. -/
theorem claim6_resolver_characterization (cfg : MinIOConfig) (b s : String) :
    getBucket cfg b = cfg.buckets.find? (fun bk => bk.name == b) ∧
    getSpace cfg b s =
      (cfg.buckets.find? (fun bk => bk.name == b)).bind
        (fun bk => bk.spaces.find? (fun sp => sp.name == s)) ∧
    getFlowDirName cfg b s = (crossBucketSpace cfg b s).map SpaceConfig.flow_dir_name ∧
    getBackupDirName cfg b s = (crossBucketSpace cfg b s).map SpaceConfig.backup_dir_name ∧
    getBackup cfg b s =
      (crossBucketSpace cfg b s).elim false (fun sp => backupIsTrueBool sp.backup) ∧
    ((cfg.buckets.filter (fun bk => bk.name = b)).length ≤ 1 →
      getFlowDirName cfg b s = claimedFlowDirName cfg b s ∧
      getBackupDirName cfg b s = claimedBackupDirName cfg b s ∧
      getBackup cfg b s = claimedBackup cfg b s) := by
  refine ⟨bucketScan_eq_find b cfg.buckets, getSpace_eq_find cfg b s,
    getFlowDirName_eq_cross cfg b s, getBackupDirName_eq_cross cfg b s,
    getBackup_eq_cross cfg b s, ?_⟩
  intro hlen
  have hgs : crossBucketSpace cfg b s = getSpace cfg b s := by
    have hcross := cross_eq_getSpace_of_unique b s cfg.buckets hlen
    rw [crossBucketSpace, hcross, getSpace, getBucket]
  refine ⟨?_, ?_, ?_⟩
  · rw [getFlowDirName_eq_cross cfg b s, hgs, claimedFlowDirName]
  · rw [getBackupDirName_eq_cross cfg b s, hgs, claimedBackupDirName]
  · rw [getBackup_eq_cross cfg b s, hgs, claimedBackup]
    cases getSpace cfg b s with
    | none => rfl
    | some sp => exact backupIsTrueBool_eq sp.backup

/-- Witness for the amended C6 at the static configuration. -/
theorem claim6_resolver_characterization_witness :
    ((staticMinioCfg.buckets.filter (fun bk => bk.name = "bucket-bronze")).length ≤ 1) ∧
    (getFlowDirName staticMinioCfg "bucket-bronze" "space-site-quotes"
        = claimedFlowDirName staticMinioCfg "bucket-bronze" "space-site-quotes" ∧
      getBackupDirName staticMinioCfg "bucket-bronze" "space-site-quotes"
        = claimedBackupDirName staticMinioCfg "bucket-bronze" "space-site-quotes" ∧
      getBackup staticMinioCfg "bucket-bronze" "space-site-quotes"
        = claimedBackup staticMinioCfg "bucket-bronze" "space-site-quotes") :=
  ⟨by decide,
    (claim6_resolver_characterization staticMinioCfg "bucket-bronze"
      "space-site-quotes").2.2.2.2.2 (by decide)⟩

/-! ## Claim C4 — `reset_minio` -/

/-- Deleting objects does not change the bucket names. -/
theorem removeBucketObjs_names (f : String → String → Bool) :
    ∀ (st : MinioState) (b : String),
      (removeBucketObjs f st b).map (·.name) = st.map (·.name) := by
  intro st b
  induction st with
  | nil => rfl
  | cons bk rest ih =>
    by_cases h : bk.name = b
    · simp [removeBucketObjs, h]
    · simp [removeBucketObjs, h, ih]

/-- Deleting objects does not change bucket existence. -/
theorem bucketExists_removeBucketObjs (f : String → String → Bool) :
    ∀ (st : MinioState) (b' b : String),
      bucketExists (removeBucketObjs f st b') b = bucketExists st b := by
  intro st b' b
  induction st with
  | nil => rfl
  | cons bk rest ih =>
    by_cases h : bk.name = b'
    · simp [removeBucketObjs, h, bucketExists]
    · simp [removeBucketObjs, h, bucketExists, ih]

/-- `remove_bucket` erases exactly the first occurrence of the name. -/
theorem removeBucketSt_names :
    ∀ (st : MinioState) (b : String), bucketExists st b = true →
      (removeBucketSt st b).map (·.name) = (st.map (·.name)).erase b := by
  intro st b
  induction st with
  | nil => intro h; exact absurd h (by simp [bucketExists])
  | cons bk rest ih =>
    intro hex
    by_cases h : bk.name = b
    · simp [removeBucketSt, h, List.erase_cons, List.map_cons]
    · have hrest : bucketExists rest b = true := by
        simpa [bucketExists, h] using hex
      simp [removeBucketSt, h, List.erase_cons, List.map_cons, ih hrest]

/-- When the reset loop reports success, the final state holds no bucket:
the snapshot of names is (a permutation of) the bucket names, and each
successful step removes exactly one bucket of the processed name. -/
theorem resetLoop_true_eq_nil (f : String → String → Bool) :
    ∀ (names : List String) (st : MinioState), (st.map (·.name)).Perm names →
      (resetLoop f st names).1 = true → (resetLoop f st names).2 = [] := by
  intro names
  induction names with
  | nil =>
    intro st hperm _
    have h0 : st.map (·.name) = [] := List.perm_nil.mp hperm
    have : st = [] := List.map_eq_nil_iff.mp h0
    simp [resetLoop, this]
  | cons b rest ih =>
    intro st hperm htrue
    rw [resetLoop] at htrue ⊢
    by_cases hex : bucketExists st b = false
    · rw [if_pos hex] at htrue
      exact absurd htrue (by simp)
    · rw [if_neg hex] at htrue ⊢
      by_cases hemp : getObjs (removeBucketObjs f st b) b = []
      · rw [if_pos hemp] at htrue ⊢
        apply ih _ _ htrue
        have hex' : bucketExists (removeBucketObjs f st b) b = true := by
          rw [bucketExists_removeBucketObjs]
          cases hb : bucketExists st b
          · exact absurd hb hex
          · rfl
        rw [removeBucketSt_names _ b hex', removeBucketObjs_names]
        have herase := hperm.erase b
        simpa [List.erase_cons_head] using herase
      · rw [if_neg hemp] at htrue
        exact absurd htrue (by simp)

/-- With no deletion failures, the reset loop removes every bucket and
reports success. -/
theorem resetLoop_noFail (f : String → String → Bool) (hf : ∀ b o, f b o = false) :
    ∀ st : MinioState, resetLoop f st (st.map (·.name)) = (true, []) := by
  intro st
  induction st with
  | nil => rfl
  | cons bk rest ih =>
    rw [List.map_cons, resetLoop]
    have hex : bucketExists (bk :: rest) bk.name = true := by simp [bucketExists]
    rw [if_neg (by simp [hex])]
    have hfil : bk.objs.filter (fun o => f bk.name o) = [] :=
      List.filter_eq_nil_iff.mpr (fun o _ => by simp [hf])
    have h1 : removeBucketObjs f (bk :: rest) bk.name = { bk with objs := [] } :: rest := by
      simp [removeBucketObjs, hfil]
    rw [h1]
    have h2 : getObjs ({ bk with objs := [] } :: rest) bk.name = [] := by simp [getObjs]
    rw [if_pos h2]
    have h3 : removeBucketSt ({ bk with objs := [] } :: rest) bk.name = rest := by
      simp [removeBucketSt]
    rw [h3]
    exact ih

/-- Claim C4: `reset_minio` iterates over every bucket of the instance,
deletes all objects within each bucket, then removes the bucket; when it
returns `True` the instance holds no buckets (hence no objects), and any
`S3Error` along the way — a bucket that can no longer be listed, or a
bucket left non-empty because object deletions failed, making
`remove_bucket` raise — is caught and turned into `False` rather than
propagated (the model `resetLoop` returns `(false, _)` on exactly those
events and is a total function).  `failDel b o` injects a deletion failure
reported by `remove_objects` for object `o` of bucket `b`. -/
theorem claim4_reset_minio (failDel : String → String → Bool) (st : MinioState) :
    ((resetMinio failDel st).1 = true → (resetMinio failDel st).2 = []) ∧
    ((∀ b o, failDel b o = false) → resetMinio failDel st = (true, [])) := by
  constructor
  · intro h
    have h' :=
      resetLoop_true_eq_nil failDel (st.map (fun bk : MinioBucket => bk.name)) st
        (List.Perm.refl _) h
    exact h'
  · intro hf
    exact resetLoop_noFail failDel hf st

/-- Witness for C4: error-free reset of a one-bucket instance empties it. -/
theorem claim4_reset_minio_witness :
    (∀ b o : String, (fun (_ _ : String) => false) b o = false) ∧
    resetMinio (fun _ _ => false)
        [{ name := "bucket-bronze", objs := ["space-site-quotes/flow-dir/"] }] = (true, []) :=
  ⟨fun _ _ => rfl,
    (claim4_reset_minio (fun _ _ => false)
      [{ name := "bucket-bronze", objs := ["space-site-quotes/flow-dir/"] }]).2
      (fun _ _ => rfl)⟩

/-! ## Claim C3 — `__init__` provisioning: buckets and folder markers -/

/-- `listPfx` is reflexive: every string is a prefix of itself. -/
theorem listPfx_refl : ∀ l : List Char, listPfx l l = true := by
  intro l
  induction l with
  | nil => rfl
  | cons a as ih => simp [listPfx, ih]

/-- `addObject` never changes which buckets exist. -/
theorem bucketExists_addObject :
    ∀ (st : MinioState) (b' o b : String),
      bucketExists (addObject st b' o) b = bucketExists st b := by
  intro st b' o b
  induction st with
  | nil => rfl
  | cons bk rest ih =>
    by_cases h : bk.name = b'
    · simp [addObject, h, bucketExists]
    · simp [addObject, h, bucketExists, ih]

/-- `make_bucket` keeps every existing bucket. -/
theorem bucketExists_makeBucket_of (st : MinioState) (b' b : String)
    (h : bucketExists st b = true) : bucketExists (makeBucket st b') b = true := by
  induction st with
  | nil => exact absurd h (by simp [bucketExists])
  | cons bk rest ih =>
    rw [bucketExists] at h
    rcases Bool.or_eq_true_iff.mp h with h1 | h2
    · simp [makeBucket, bucketExists, h1]
    · have hr := ih h2
      rw [makeBucket] at hr
      simp [makeBucket, bucketExists, hr]

/-- `make_bucket` makes its bucket exist. -/
theorem bucketExists_makeBucket_self (st : MinioState) (b : String) :
    bucketExists (makeBucket st b) b = true := by
  induction st with
  | nil => simp [makeBucket, bucketExists]
  | cons bk rest ih => simp [makeBucket, bucketExists] at ih ⊢ ; right; exact ih

/-- A bucket that does not exist has no objects. -/
theorem getObjs_of_not_exists :
    ∀ (st : MinioState) (b : String), bucketExists st b = false → getObjs st b = [] := by
  intro st b
  induction st with
  | nil => intro _; rfl
  | cons bk rest ih =>
    intro h
    rw [bucketExists, Bool.or_eq_false_iff] at h
    have hne : ¬ bk.name = b := by simpa using h.1
    rw [getObjs, if_neg hne]
    exact ih h.2

/-- `addObject` into an existing bucket appends the object. -/
theorem getObjs_addObject_same :
    ∀ (st : MinioState) (b o : String), bucketExists st b = true →
      getObjs (addObject st b o) b = getObjs st b ++ [o] := by
  intro st b o
  induction st with
  | nil => intro h; exact absurd h (by simp [bucketExists])
  | cons bk rest ih =>
    intro h
    by_cases hb : bk.name = b
    · simp [addObject, hb, getObjs]
    · have hrest : bucketExists rest b = true := by simpa [bucketExists, hb] using h
      simp [addObject, hb, getObjs, ih hrest]

/-- `addObject` into another bucket leaves this bucket's objects alone. -/
theorem getObjs_addObject_ne :
    ∀ (st : MinioState) (b' o b : String), b ≠ b' →
      getObjs (addObject st b' o) b = getObjs st b := by
  intro st b' o b hne
  induction st with
  | nil => rfl
  | cons bk rest ih =>
    by_cases h : bk.name = b'
    · have hnb : ¬ bk.name = b := by rw [h]; exact fun hc => hne hc.symm
      simp [addObject, h, getObjs, hnb, hne.symm]
    · by_cases hb : bk.name = b
      · simp [addObject, h, getObjs, hb, hne]
      · simp [addObject, h, getObjs, hb, ih]

/-- `make_bucket` leaves the objects of every existing bucket alone. -/
theorem getObjs_makeBucket_of :
    ∀ (st : MinioState) (b' b : String), bucketExists st b = true →
      getObjs (makeBucket st b') b = getObjs st b := by
  intro st b' b
  induction st with
  | nil => intro h; exact absurd h (by simp [bucketExists])
  | cons bk rest ih =>
    intro h
    by_cases hb : bk.name = b
    · simp [makeBucket, getObjs, hb]
    · have hrest : bucketExists rest b = true := by simpa [bucketExists, hb] using h
      simp only [makeBucket, List.cons_append, getObjs, if_neg hb]
      exact ih hrest

/-- A bucket holding a prefixed object exists. -/
theorem bucketExists_of_hasObj (st : MinioState) (b p : String)
    (h : hasObjWithPfx st b p = true) : bucketExists st b = true := by
  cases hb : bucketExists st b
  · rw [hasObjWithPfx, getObjs_of_not_exists st b hb] at h
    exact absurd h (by simp)
  · rfl

/-- `addObject` preserves prefixed-object existence. -/
theorem hasObj_addObject_of (st : MinioState) (b' o b p : String)
    (h : hasObjWithPfx st b p = true) :
    hasObjWithPfx (addObject st b' o) b p = true := by
  by_cases hb : b = b'
  · subst hb
    rw [hasObjWithPfx, getObjs_addObject_same st b o (bucketExists_of_hasObj st b p h)]
    rw [hasObjWithPfx] at h
    simp [List.any_append, h]
  · rwa [hasObjWithPfx, getObjs_addObject_ne st b' o b hb]

/-- `make_bucket` preserves prefixed-object existence. -/
theorem hasObj_makeBucket_of (st : MinioState) (b' b p : String)
    (h : hasObjWithPfx st b p = true) :
    hasObjWithPfx (makeBucket st b') b p = true := by
  rwa [hasObjWithPfx, getObjs_makeBucket_of st b' b (bucketExists_of_hasObj st b p h)]

/-- `_ensure_folder_in_bucket` never changes which buckets exist. -/
theorem bucketExists_ensureFolder (st : MinioState) (b' f b : String) :
    bucketExists (ensureFolderInBucket st b' f) b = bucketExists st b := by
  simp only [ensureFolderInBucket]
  by_cases h1 : bucketExists st b' = true
  · rw [if_pos h1]
    by_cases h2 : hasObjWithPfx st b' (withSlash f) = true
    · rw [if_pos h2]
    · rw [if_neg h2]
      exact bucketExists_addObject st b' (withSlash f) b
  · rw [if_neg h1]

/-- `_ensure_folder_in_bucket` preserves prefixed-object existence. -/
theorem hasObj_ensureFolder_of (st : MinioState) (b' f b p : String)
    (h : hasObjWithPfx st b p = true) :
    hasObjWithPfx (ensureFolderInBucket st b' f) b p = true := by
  simp only [ensureFolderInBucket]
  by_cases h1 : bucketExists st b' = true
  · rw [if_pos h1]
    by_cases h2 : hasObjWithPfx st b' (withSlash f) = true
    · rwa [if_pos h2]
    · rw [if_neg h2]
      exact hasObj_addObject_of st b' (withSlash f) b p h
  · rwa [if_neg h1]

/-- `_ensure_folder_in_bucket` on an existing bucket establishes an object
with the slash-terminated folder prefix. -/
theorem ensureFolder_establishes (st : MinioState) (b f : String)
    (hex : bucketExists st b = true) :
    hasObjWithPfx (ensureFolderInBucket st b f) b (withSlash f) = true := by
  simp only [ensureFolderInBucket]
  rw [if_pos hex]
  by_cases hh : hasObjWithPfx st b (withSlash f) = true
  · rwa [if_pos hh]
  · rw [if_neg hh]
    rw [hasObjWithPfx, getObjs_addObject_same st b _ hex]
    simp [List.any_append, listPfx_refl]

/-- `ensureSpaceFolders` never changes which buckets exist. -/
theorem bucketExists_ensureSpaceFolders (cfg : MinIOConfig) (st : MinioState)
    (bn sn b : String) :
    bucketExists (ensureSpaceFolders cfg st bn sn) b = bucketExists st b := by
  cases hsp : getSpace cfg bn sn with
  | none => simp [ensureSpaceFolders, hsp]
  | some sp =>
    simp only [ensureSpaceFolders, hsp]
    by_cases hbk : pyTruthy sp.backup = true
    · rw [if_pos hbk, bucketExists_ensureFolder, bucketExists_ensureFolder]
    · rw [if_neg hbk, bucketExists_ensureFolder]

/-- `ensureSpaceFolders` preserves prefixed-object existence. -/
theorem hasObj_ensureSpaceFolders_of (cfg : MinIOConfig) (st : MinioState)
    (bn sn b p : String) (h : hasObjWithPfx st b p = true) :
    hasObjWithPfx (ensureSpaceFolders cfg st bn sn) b p = true := by
  cases hsp : getSpace cfg bn sn with
  | none => simpa [ensureSpaceFolders, hsp] using h
  | some sp =>
    simp only [ensureSpaceFolders, hsp]
    by_cases hbk : pyTruthy sp.backup = true
    · rw [if_pos hbk]
      exact hasObj_ensureFolder_of _ _ _ _ _ (hasObj_ensureFolder_of _ _ _ _ _ h)
    · rw [if_neg hbk]
      exact hasObj_ensureFolder_of _ _ _ _ _ h

/-- `ensureSpaceFolders` on an existing bucket establishes the flow-folder
marker prefix, and the backup-folder marker prefix when backup is truthy. -/
theorem ensureSpaceFolders_establishes (cfg : MinIOConfig) (st : MinioState)
    (bn sn : String) (sp : SpaceConfig) (hsp : getSpace cfg bn sn = some sp)
    (hex : bucketExists st bn = true) :
    hasObjWithPfx (ensureSpaceFolders cfg st bn sn) bn
      (withSlash (sn ++ "/" ++ sp.flow_dir_name)) = true ∧
    (pyTruthy sp.backup = true →
      hasObjWithPfx (ensureSpaceFolders cfg st bn sn) bn
        (withSlash (sn ++ "/" ++ sp.backup_dir_name)) = true) := by
  simp only [ensureSpaceFolders, hsp]
  by_cases hbk : pyTruthy sp.backup = true
  · rw [if_pos hbk]
    constructor
    · exact hasObj_ensureFolder_of _ _ _ _ _ (ensureFolder_establishes st bn _ hex)
    · intro _
      apply ensureFolder_establishes
      rw [bucketExists_ensureFolder]
      exact hex
  · rw [if_neg hbk]
    exact ⟨ensureFolder_establishes st bn _ hex, fun hc => absurd hc hbk⟩

/-- The space loop never changes which buckets exist. -/
theorem spacesFold_pres_exists (cfg : MinIOConfig) (bn : String) :
    ∀ (sns : List String) (st : MinioState) (b : String),
      bucketExists (sns.foldl (fun s sn => ensureSpaceFolders cfg s bn sn) st) b
        = bucketExists st b := by
  intro sns
  induction sns with
  | nil => intro st b; rfl
  | cons sn rest ih =>
    intro st b
    rw [List.foldl_cons, ih, bucketExists_ensureSpaceFolders]

/-- The space loop preserves prefixed-object existence. -/
theorem spacesFold_pres_hasObj (cfg : MinIOConfig) (bn : String) :
    ∀ (sns : List String) (st : MinioState) (b p : String),
      hasObjWithPfx st b p = true →
      hasObjWithPfx (sns.foldl (fun s sn => ensureSpaceFolders cfg s bn sn) st) b p
        = true := by
  intro sns
  induction sns with
  | nil => intro st b p h; exact h
  | cons sn rest ih =>
    intro st b p h
    rw [List.foldl_cons]
    exact ih _ _ _ (hasObj_ensureSpaceFolders_of cfg st bn sn b p h)

/-- The space loop establishes, for each of its space names resolving to a
space config, the flow marker prefix (and the backup marker prefix for
truthy backup). -/
theorem spacesFold_establishes (cfg : MinIOConfig) (bn : String) :
    ∀ (sns : List String) (st : MinioState), bucketExists st bn = true →
      ∀ sn ∈ sns, ∀ sp : SpaceConfig, getSpace cfg bn sn = some sp →
        hasObjWithPfx (sns.foldl (fun s sn => ensureSpaceFolders cfg s bn sn) st) bn
          (withSlash (sn ++ "/" ++ sp.flow_dir_name)) = true ∧
        (pyTruthy sp.backup = true →
          hasObjWithPfx (sns.foldl (fun s sn => ensureSpaceFolders cfg s bn sn) st) bn
            (withSlash (sn ++ "/" ++ sp.backup_dir_name)) = true) := by
  intro sns
  induction sns with
  | nil =>
    intro st _ sn hmem
    exact absurd hmem (List.not_mem_nil sn)
  | cons sn' rest ih =>
    intro st hex sn hmem sp hsp
    rw [List.foldl_cons]
    rcases List.mem_cons.mp hmem with heq | hmem'
    · subst heq
      have hest := ensureSpaceFolders_establishes cfg st bn sn sp hsp hex
      constructor
      · exact spacesFold_pres_hasObj cfg bn rest _ _ _ hest.1
      · intro hbk
        exact spacesFold_pres_hasObj cfg bn rest _ _ _ (hest.2 hbk)
    · exact ih (ensureSpaceFolders cfg st bn sn')
        (by rw [bucketExists_ensureSpaceFolders]; exact hex) sn hmem' sp hsp

/-- After its bucket step, the bucket exists. -/
theorem bucketStep_exists_self (cfg : MinIOConfig) (st : MinioState) (bn : String) :
    bucketExists (ensureBucketStep cfg st bn) bn = true := by
  simp only [ensureBucketStep]
  rw [spacesFold_pres_exists]
  by_cases h : bucketExists st bn = true
  · rwa [if_pos h]
  · rw [if_neg h]
    exact bucketExists_makeBucket_self st bn

/-- The bucket step establishes the markers for each configured space of
its bucket. -/
theorem bucketStep_establishes (cfg : MinIOConfig) (st : MinioState) (bn : String) :
    ∀ sn ∈ listSpaceNames cfg bn, ∀ sp : SpaceConfig, getSpace cfg bn sn = some sp →
      hasObjWithPfx (ensureBucketStep cfg st bn) bn
        (withSlash (sn ++ "/" ++ sp.flow_dir_name)) = true ∧
      (pyTruthy sp.backup = true →
        hasObjWithPfx (ensureBucketStep cfg st bn) bn
          (withSlash (sn ++ "/" ++ sp.backup_dir_name)) = true) := by
  intro sn hmem sp hsp
  simp only [ensureBucketStep]
  apply spacesFold_establishes cfg bn (listSpaceNames cfg bn) _ ?_ sn hmem sp hsp
  by_cases h : bucketExists st bn = true
  · rwa [if_pos h]
  · rw [if_neg h]
    exact bucketExists_makeBucket_self st bn

/-- The bucket step keeps every existing bucket. -/
theorem bucketStep_pres_exists (cfg : MinIOConfig) (st : MinioState) (bn' b : String)
    (h : bucketExists st b = true) :
    bucketExists (ensureBucketStep cfg st bn') b = true := by
  simp only [ensureBucketStep]
  rw [spacesFold_pres_exists]
  by_cases hx : bucketExists st bn' = true
  · rwa [if_pos hx]
  · rw [if_neg hx]
    exact bucketExists_makeBucket_of st bn' b h

/-- The bucket step preserves prefixed-object existence. -/
theorem bucketStep_pres_hasObj (cfg : MinIOConfig) (st : MinioState) (bn' b p : String)
    (h : hasObjWithPfx st b p = true) :
    hasObjWithPfx (ensureBucketStep cfg st bn') b p = true := by
  simp only [ensureBucketStep]
  apply spacesFold_pres_hasObj
  by_cases hx : bucketExists st bn' = true
  · rwa [if_pos hx]
  · rw [if_neg hx]
    exact hasObj_makeBucket_of st bn' b p h

/-- The bucket loop keeps every existing bucket. -/
theorem bucketsFold_pres_exists (cfg : MinIOConfig) :
    ∀ (bns : List String) (st : MinioState) (b : String), bucketExists st b = true →
      bucketExists (bns.foldl (fun s bn => ensureBucketStep cfg s bn) st) b = true := by
  intro bns
  induction bns with
  | nil => intro st b h; exact h
  | cons bn rest ih =>
    intro st b h
    rw [List.foldl_cons]
    exact ih _ _ (bucketStep_pres_exists cfg st bn b h)

/-- The bucket loop preserves prefixed-object existence. -/
theorem bucketsFold_pres_hasObj (cfg : MinIOConfig) :
    ∀ (bns : List String) (st : MinioState) (b p : String), hasObjWithPfx st b p = true →
      hasObjWithPfx (bns.foldl (fun s bn => ensureBucketStep cfg s bn) st) b p = true := by
  intro bns
  induction bns with
  | nil => intro st b p h; exact h
  | cons bn rest ih =>
    intro st b p h
    rw [List.foldl_cons]
    exact ih _ _ _ (bucketStep_pres_hasObj cfg st bn b p h)

/-- The bucket loop establishes, for each of its bucket names, the bucket
and all of its configured space markers. -/
theorem bucketsFold_establishes (cfg : MinIOConfig) :
    ∀ (bns : List String) (st : MinioState), ∀ bn ∈ bns,
      bucketExists (bns.foldl (fun s b => ensureBucketStep cfg s b) st) bn = true ∧
      (∀ sn ∈ listSpaceNames cfg bn, ∀ sp : SpaceConfig, getSpace cfg bn sn = some sp →
        hasObjWithPfx (bns.foldl (fun s b => ensureBucketStep cfg s b) st) bn
          (withSlash (sn ++ "/" ++ sp.flow_dir_name)) = true ∧
        (pyTruthy sp.backup = true →
          hasObjWithPfx (bns.foldl (fun s b => ensureBucketStep cfg s b) st) bn
            (withSlash (sn ++ "/" ++ sp.backup_dir_name)) = true)) := by
  intro bns
  induction bns with
  | nil =>
    intro st bn hmem
    exact absurd hmem (List.not_mem_nil bn)
  | cons b' rest ih =>
    intro st bn hmem
    rw [List.foldl_cons]
    rcases List.mem_cons.mp hmem with heq | hmem'
    · subst heq
      refine ⟨bucketsFold_pres_exists cfg rest _ _ (bucketStep_exists_self cfg st bn), ?_⟩
      intro sn hsn sp hsp
      have hest := bucketStep_establishes cfg st bn sn hsn sp hsp
      exact ⟨bucketsFold_pres_hasObj cfg rest _ _ _ hest.1,
        fun hbk => bucketsFold_pres_hasObj cfg rest _ _ _ (hest.2 hbk)⟩
    · exact ih (ensureBucketStep cfg st b') bn hmem'

/-- Appending the slash when none is present. -/
theorem withSlash_eq (f : String) (h : pyEndsWithSlash f = false) :
    withSlash f = f ++ "/" := by
  rw [withSlash, if_neg (by simp [h])]

/-- Claim C3: after `MinIOStorage.__init__` completes, for every bucket name
listed in the static configuration that bucket exists in MinIO, and for
every space of that bucket an object with prefix
`space_name + "/" + flow_dir_name + "/"` exists (a zero-byte marker of that
exact name is created when the prefix is empty); a prefix
`space_name + "/" + backup_dir_name + "/"` likewise exists for every space
whose backup flag is truthy — and the backup folder is ensured **exactly**
for those spaces: for any configuration, a space with non-truthy backup
makes `ensureSpaceFolders` perform only the flow-folder ensure (final
conjunct).  The side hypotheses record that the configured dir names do not
already end in a slash, which fixes the marker names. -/
theorem claim3_provisioning (st0 : MinioState) (bn sn : String) (sp : SpaceConfig)
    (hbn : bn ∈ listBucketNames staticMinioCfg)
    (hsn : sn ∈ listSpaceNames staticMinioCfg bn)
    (hsp : getSpace staticMinioCfg bn sn = some sp)
    (hf : pyEndsWithSlash (sn ++ "/" ++ sp.flow_dir_name) = false)
    (hb : pyEndsWithSlash (sn ++ "/" ++ sp.backup_dir_name) = false) :
    bucketExists (ensureBucketsAndFolders staticMinioCfg st0) bn = true ∧
    hasObjWithPfx (ensureBucketsAndFolders staticMinioCfg st0) bn
      (sn ++ "/" ++ sp.flow_dir_name ++ "/") = true ∧
    (pyTruthy sp.backup = true →
      hasObjWithPfx (ensureBucketsAndFolders staticMinioCfg st0) bn
        (sn ++ "/" ++ sp.backup_dir_name ++ "/") = true) ∧
    (∀ (cfg : MinIOConfig) (st : MinioState) (bn' sn' : String) (sp' : SpaceConfig),
      getSpace cfg bn' sn' = some sp' → pyTruthy sp'.backup = false →
      ensureSpaceFolders cfg st bn' sn' =
        ensureFolderInBucket st bn' (sn' ++ "/" ++ sp'.flow_dir_name)) := by
  have hmain := bucketsFold_establishes staticMinioCfg (listBucketNames staticMinioCfg)
    st0 bn hbn
  refine ⟨hmain.1, ?_, ?_, ?_⟩
  · have h1 := (hmain.2 sn hsn sp hsp).1
    rwa [withSlash_eq _ hf] at h1
  · intro hbk
    have h2 := (hmain.2 sn hsn sp hsp).2 hbk
    rwa [withSlash_eq _ hb] at h2
  · intro cfg st bn' sn' sp' hsp' htr
    simp [ensureSpaceFolders, hsp', htr]

/-- Witness for C3 at `("bucket-bronze", "space-site-quotes")` over an
initially empty instance. -/
theorem claim3_provisioning_witness :
    ("bucket-bronze" ∈ listBucketNames staticMinioCfg ∧
      "space-site-quotes" ∈ listSpaceNames staticMinioCfg "bucket-bronze" ∧
      getSpace staticMinioCfg "bucket-bronze" "space-site-quotes" =
        some { name := "space-site-quotes", flow_dir_name := "flow-dir"
               backup_dir_name := "backup-dir", backup := .pybool true } ∧
      pyEndsWithSlash ("space-site-quotes" ++ "/" ++ "flow-dir") = false ∧
      pyEndsWithSlash ("space-site-quotes" ++ "/" ++ "backup-dir") = false) ∧
    (bucketExists (ensureBucketsAndFolders staticMinioCfg []) "bucket-bronze" = true ∧
      hasObjWithPfx (ensureBucketsAndFolders staticMinioCfg []) "bucket-bronze"
        ("space-site-quotes" ++ "/" ++ "flow-dir" ++ "/") = true ∧
      (pyTruthy (PyBackup.pybool true) = true →
        hasObjWithPfx (ensureBucketsAndFolders staticMinioCfg []) "bucket-bronze"
          ("space-site-quotes" ++ "/" ++ "backup-dir" ++ "/") = true) ∧
      (∀ (cfg : MinIOConfig) (st : MinioState) (bn' sn' : String) (sp' : SpaceConfig),
        getSpace cfg bn' sn' = some sp' → pyTruthy sp'.backup = false →
        ensureSpaceFolders cfg st bn' sn' =
          ensureFolderInBucket st bn' (sn' ++ "/" ++ sp'.flow_dir_name))) :=
  ⟨⟨by decide, by decide, by decide, by decide, by decide⟩,
    claim3_provisioning []
      "bucket-bronze" "space-site-quotes"
      { name := "space-site-quotes", flow_dir_name := "flow-dir"
        backup_dir_name := "backup-dir", backup := .pybool true }
      (by decide) (by decide) (by decide) (by decide) (by decide)⟩

end MSSP
